import Mathlib

/-!
# celeste-whatsup-server: admission, classification, dispatch and delivery

A shallow embedding of the decision logic of the relay:

* `shouldHandleMessage` (src/app.js), the admission policy;
* `parseCommand` and `getWeather` (src/api/handlers.js);
* `sendMessage` (src/whatsapp/client.js), the delivery loop.

JavaScript strings are modelled as lists of characters (`Str`).  The string
built-ins the code calls (`trim`, `startsWith`, `endsWith`, `includes`,
`replace` with a string pattern, `split`, the global regex `/[^\d]/g`) are
defined below after ECMA-262.  `toLowerCase` depends on the Unicode case
tables of the runtime, which are not part of the repository: every definition
that calls it takes it as the parameter `toLowerCase`, and `asciiLower` is the
mapping it performs on ASCII text.  Logging calls are left out: the logger is
taken not to fail.  What is kept is the argument a log line evaluates when that
can throw, the read of `error.message` in the outer `catch` of `sendMessage`.
-/

namespace Celeste

/-- A JavaScript string, as the list of its characters. -/
abbrev Str := List Char

/-! ## String built-ins -/

/-- ECMA-262 `WhiteSpace` and `LineTerminator` code points: the characters
`String.prototype.trim` strips. -/
def isWhiteSpace (c : Char) : Bool :=
  let n := c.toNat
  n == 0x09 || n == 0x0A || n == 0x0B || n == 0x0C || n == 0x0D || n == 0x20 ||
  n == 0xA0 || n == 0x1680 || (0x2000 ≤ n && n ≤ 0x200A) || n == 0x2028 ||
  n == 0x2029 || n == 0x202F || n == 0x205F || n == 0x3000 || n == 0xFEFF

/-- The method `s.trimStart()`. -/
def trimStart (s : Str) : Str := s.dropWhile isWhiteSpace

/-- The method `s.trimEnd()`. -/
def trimEnd (s : Str) : Str := (s.reverse.dropWhile isWhiteSpace).reverse

/-- The method `s.trim()`. -/
def trim (s : Str) : Str := trimEnd (trimStart s)

/-- The method `s.startsWith(p)`. -/
def startsWith (s p : Str) : Bool := p.isPrefixOf s

/-- The method `s.endsWith(p)`. -/
def endsWith (s p : Str) : Bool := p.isSuffixOf s

/-- The method `s.includes(p)`: `p` occurs at some position of `s`. -/
def includes : Str → Str → Bool
  | [], p => p.isPrefixOf []
  | c :: cs, p => p.isPrefixOf (c :: cs) || includes cs p

/-- The call `s.replace(p, '')` with a string pattern `p`: the first occurrence
of `p` in `s` is removed, and `s` is returned unchanged when there is none. -/
def removeFirst : Str → Str → Str
  | [], _ => []
  | c :: cs, p =>
    if p.isPrefixOf (c :: cs) then (c :: cs).drop p.length
    else c :: removeFirst cs p

/-- The call `s.replace(/[^\d]/g, '')`: every character outside `0`..`9` is
removed. -/
def stripNonDigits (s : Str) : Str := s.filter Char.isDigit

/-- The call `s.split(sep)` for a one-character separator; the result is never
empty, `''.split(sep)` being `['']`. -/
def split (sep : Char) : Str → List Str
  | [] => [[]]
  | c :: cs =>
    if c = sep then [] :: split sep cs
    else
      match split sep cs with
      | [] => [[c]]
      | h :: t => (c :: h) :: t

/-- The call `parts.join(sep)`. -/
def join (sep : Str) (parts : List Str) : Str := sep.intercalate parts

/-- What `toLowerCase` does to one ASCII character. -/
def asciiLowerChar (c : Char) : Char :=
  if 65 ≤ c.toNat ∧ c.toNat ≤ 90 then Char.ofNat (c.toNat + 32) else c

/-- The method `s.toLowerCase()` on ASCII text. -/
def asciiLower (s : Str) : Str := s.map asciiLowerChar

/-! ## Admission policy (src/app.js) -/

/-- The part of `process.env` that `shouldHandleMessage` reads; `none` is an
unset variable. -/
structure Env where
  BOT_RESPONSE_MODE : Option Str
  ADMIN_NUMBERS : Option Str

/-- The fields of a transport message that `shouldHandleMessage` reads
(`from_` is the field `from`). -/
structure Message where
  from_ : Str
  body : Str
  fromMe : Bool

/-- The expression `process.env.BOT_RESPONSE_MODE || 'admin_only'`: unset and the
empty string are both falsy. -/
def responseMode (env : Env) : Str :=
  match env.BOT_RESPONSE_MODE with
  | none => "admin_only".toList
  | some m => if m = [] then "admin_only".toList else m

/-- The expression
`process.env.ADMIN_NUMBERS?.split(',').map(num => num.trim()) || []`. -/
def adminNumbers (env : Env) : List Str :=
  match env.ADMIN_NUMBERS with
  | none => []
  | some s => (split ',' s).map trim

/-- The `for` loop of the `admin_only` case: the first entry whose digits occur
in `fromNumber` makes the function return `true`. -/
def adminLoop (fromNumber : Str) : List Str → Bool
  | [] => false
  | adminNumber :: rest =>
    let cleanAdminNumber := stripNonDigits adminNumber
    if includes fromNumber cleanAdminNumber then true
    else adminLoop fromNumber rest

/-- The body of `case 'admin_only'`. -/
def adminOnly (env : Env) (message : Message) : Bool :=
  let fromNumber := removeFirst message.from_ "@c.us".toList
  adminLoop fromNumber (adminNumbers env)

/-- The array `botCommands` of `case 'command_only'`. -/
def botCommands : List Str :=
  ["/weather".toList, "/translate".toList, "/search".toList, "/help".toList]

/-- The function `shouldHandleMessage(message)`.  The `default` case calls the
function again on the same message, under the same environment; `fuel` bounds
the depth of these calls, and `none` means that the call stack was exhausted
before any value was returned. -/
def shouldHandleMessage (toLowerCase : Str → Str) :
    Nat → Env → Message → Option Bool
  | fuel, env, message =>
    if message.fromMe then some false
    else if endsWith message.from_ "@g.us".toList then some false
    else if responseMode env = "admin_only".toList then
      some (adminOnly env message)
    else if responseMode env = "command_only".toList then
      some (botCommands.any fun cmd => startsWith (toLowerCase message.body) cmd)
    else if responseMode env = "direct_messages_only".toList then
      some (endsWith message.from_ "@c.us".toList)
    else if responseMode env = "all".toList then some true
    else
      match fuel with
      | 0 => none
      | n + 1 => shouldHandleMessage toLowerCase n env message

/-! ## Command classifier (src/api/handlers.js) -/

/-- The object `parseCommand` returns: the constructor is the field `type`, its
argument the content of `params`. -/
inductive Command where
  | weather (location : Str)
  | translate (text : Str)
  | search (query : Str)
  | help
  | generic (text : Str)
  deriving DecidableEq, Repr

/-- The field `type` of a command. -/
def Command.type : Command → Str
  | .weather _ => "weather".toList
  | .translate _ => "translate".toList
  | .search _ => "search".toList
  | .help => "help".toList
  | .generic _ => "generic".toList

/-- The method `parseCommand(messageText)`. -/
def parseCommand (toLowerCase : Str → Str) (messageText : Str) : Command :=
  let text := trim (toLowerCase messageText)
  if startsWith text "/weather".toList || includes text "weather".toList then
    let location :=
      trim (removeFirst (removeFirst text "/weather".toList) "weather".toList)
    .weather location
  else if startsWith text "/translate".toList then
    let parts := split ' ' text
    let textToTranslate := join " ".toList (parts.drop 1)
    .translate textToTranslate
  else if startsWith text "/search".toList then
    let query := trim (removeFirst text "/search".toList)
    .search query
  else if includes text "help".toList || text == "/help".toList then .help
  else .generic messageText

/-! ## Weather dispatch (src/api/handlers.js) -/

/-- A JavaScript value met while `getWeather` runs: `response.data`, which is
the decoded JSON body or, for a body that is not JSON (the empty body too), its
text as a string; and `undefined`, the value of a property that is absent.  A
number carries its decimal rendering, the string `ToString` gives for it. -/
inductive JsValue where
  | undefined
  | null
  | bool (b : Bool)
  | num (rendering : Str)
  | str (s : Str)
  | arr (items : List JsValue)
  | obj (fields : List (Str × JsValue))

/-- An exception value: the rejection of the HTTP call (timeout, non-2xx status,
network failure) or a `TypeError` raised while evaluating an expression. -/
inductive JsError where
  | http (reason : Str)
  | typeError
  deriving DecidableEq, Repr

/-- The outcome of `await axios.get(...)`: the call throws, or it returns a
response whose `data` is the given value. -/
inductive HttpOutcome where
  | threw (e : JsError)
  | returned (data : JsValue)

/-- The own property `key` of a decoded object, the last of duplicate keys
winning as in `JSON.parse`; `none` when there is no such property. -/
def lookupField (key : Str) : List (Str × JsValue) → Option JsValue
  | [] => none
  | (k, v) :: rest =>
    match lookupField key rest with
    | some w => some w
    | none => if k = key then some v else none

/-- The property read `v.key` for a key that no prototype defines
(`description`, `temperature`): a `TypeError` on `undefined` and `null`, the own
property of an object, `undefined` otherwise. -/
def getProp (v : JsValue) (key : Str) : Except JsError JsValue :=
  match v with
  | .undefined => .error .typeError
  | .null => .error .typeError
  | .obj fields => .ok ((lookupField key fields).getD .undefined)
  | _ => .ok .undefined

mutual
/-- The conversion `ToString(v)` a template literal applies.  A decoded object
has no callable own `toString`: one with an own property of that name cannot be
converted (`TypeError`), any other is `[object Object]`.  An array is the
comma-joined conversion of its items. -/
def toStr : JsValue → Except JsError Str
  | .undefined => .ok "undefined".toList
  | .null => .ok "null".toList
  | .bool true => .ok "true".toList
  | .bool false => .ok "false".toList
  | .num r => .ok r
  | .str s => .ok s
  | .arr items => joinItems items
  | .obj fields =>
    if fields.any (fun kv => kv.1 == "toString".toList) then .error .typeError
    else .ok "[object Object]".toList
/-- The method `Array.prototype.join` with the default separator: `undefined`
and `null` items are empty strings. -/
def joinItems : List JsValue → Except JsError Str
  | [] => .ok []
  | [.undefined] => .ok []
  | [.null] => .ok []
  | [v] => toStr v
  | .undefined :: rest => (joinItems rest).map fun r => ',' :: r
  | .null :: rest => (joinItems rest).map fun r => ',' :: r
  | v :: rest =>
    match toStr v with
    | .error e => .error e
    | .ok s => (joinItems rest).map fun r => s ++ ',' :: r
end

/-- The reply of the `catch` block of `getWeather`. -/
def weatherApology (location : Str) : Str :=
  "Sorry, I couldn't get weather information for ".toList ++ location ++
    ". Please try again.".toList

/-- The `try` block of `getWeather`: the request, then the template literal
over `weather.description` and `weather.temperature`. -/
def getWeatherTry (request : HttpOutcome) (location : Str) : Except JsError Str :=
  match request with
  | .threw e => .error e
  | .returned weather => do
    let description ← getProp weather "description".toList
    let d ← toStr description
    let temperature ← getProp weather "temperature".toList
    let t ← toStr temperature
    pure ("Weather in ".toList ++ location ++ ": ".toList ++ d ++ ", ".toList
      ++ t ++ "°C".toList)

/-- The method `getWeather(params)` with `params.location = location`, against
the outcome `request` of the HTTP call: any exception of the `try` block is
caught and replaced by the apology. -/
def getWeather (request : HttpOutcome) (location : Str) : Except JsError Str :=
  match getWeatherTry request location with
  | .ok reply => .ok reply
  | .error _ => .ok (weatherApology location)

/-! ## Delivery (src/whatsapp/client.js) -/

/-- What `sendMessage` does to the outside world, in order: a call of the
transport's `sendMessage(chatId, message)`, or a `setTimeout` wait. -/
inductive Event where
  | send (chatId message : Str)
  | wait (ms : Nat)
  deriving DecidableEq, Repr

/-- The value a rejected send throws: `null`, `undefined`, or any other value
`e`, on which the read `e.message` succeeds (an `Error` object as a rule). -/
inductive Rejection (ε : Type) where
  | null
  | undefined
  | error (e : ε)
  deriving DecidableEq, Repr

/-- The exceptions `sendMessage` throws: the `Error` of the failed readiness
check, the value `r` the transport rejected a send with, or the `TypeError` of
reading a property of `null` or `undefined`. -/
inductive SendError (ε : Type) where
  | notReady
  | transport (r : Rejection ε)
  | typeError
  deriving DecidableEq, Repr

/-- A finished call of `sendMessage`: how it ended and what it did. -/
structure Run (ε : Type) where
  result : Except (SendError ε) Unit
  events : List Event

/-- The `while (retries > 0)` loop of `sendMessage`.  `outcome i` is what the
`i`-th call of the transport's `sendMessage` does (`none`: it resolves,
`some r`: it throws `r`); `calls` counts the calls made so far. -/
def sendLoop {ε : Type} (outcome : Nat → Option (Rejection ε)) (chatId message : Str) :
    (retries calls : Nat) → Run ε
  | 0, _ => ⟨.ok (), []⟩
  | retries + 1, calls =>
    match outcome calls with
    | none => ⟨.ok (), [.send chatId message]⟩
    | some sendError =>
      if retries = 0 then ⟨.error (.transport sendError), [.send chatId message]⟩
      else
        let rest := sendLoop outcome chatId message retries (calls + 1)
        ⟨rest.result, .send chatId message :: .wait 2000 :: rest.events⟩

/-- The constant `chatId` of `sendMessage` (`to_` is the parameter `to`). -/
def chatId (to_ : Str) : Str :=
  if includes to_ "@".toList then to_ else to_ ++ "@c.us".toList

/-- The `try` block of `sendMessage`: the readiness check
(`ready` is `this.client && this.client.info`), then the loop. -/
def sendMessageTry {ε : Type} (ready : Bool) (outcome : Nat → Option (Rejection ε))
    (to_ message : Str) : Run ε :=
  if !ready then ⟨.error .notReady, []⟩
  else sendLoop outcome (chatId to_) message 3 0

/-- The outer `catch (error)` of `sendMessage`: it reads `error.message` for the
log line, then `throw error`.  The read throws a `TypeError` when `error` is
`null` or `undefined`, and that is then what leaves the function. -/
def outerCatch {ε : Type} : SendError ε → SendError ε
  | .transport .null => .typeError
  | .transport .undefined => .typeError
  | error => error

/-- The method `sendMessage(to, message)`. -/
def sendMessage {ε : Type} (ready : Bool) (outcome : Nat → Option (Rejection ε))
    (to_ message : Str) : Run ε :=
  match (sendMessageTry ready outcome to_ message).result with
  | .ok () => sendMessageTry ready outcome to_ message
  | .error error =>
    ⟨.error (outerCatch error), (sendMessageTry ready outcome to_ message).events⟩

/-! ## Spec-side notions -/

/-- Spec wording, "the sender identity with the `@c.us` suffix removed": a
trailing `@c.us` is dropped, an identity that does not end with it is kept. -/
def specStripSuffix (sender : Str) : Str :=
  if "@c.us".toList <:+ sender then sender.take (sender.length - 5) else sender

/-- Spec wording, "leading whitespace": the first character is a white-space
character. -/
def startsWithWhiteSpace : Str → Bool
  | [] => false
  | c :: _ => isWhiteSpace c

/-- Spec wording, "trailing whitespace": the last character is a white-space
character. -/
def endsWithWhiteSpace (s : Str) : Bool := startsWithWhiteSpace s.reverse

/-! ## Lemmas on the string built-ins -/

theorem startsWith_iff (s p : Str) : startsWith s p = true ↔ p <+: s := by
  simp [startsWith]

theorem endsWith_iff (s p : Str) : endsWith s p = true ↔ p <:+ s := by
  simp [endsWith]

theorem includes_iff (s p : Str) : includes s p = true ↔ p <:+: s := by
  induction s with
  | nil =>
    cases p <;> simp [includes]
  | cons c cs ih =>
    rw [includes, Bool.or_eq_true, ih, List.isPrefixOf_iff_prefix, List.infix_cons_iff]

theorem adminLoop_iff (fromNumber : Str) (entries : List Str) :
    adminLoop fromNumber entries = true ↔
      ∃ entry ∈ entries, stripNonDigits entry <:+: fromNumber := by
  induction entries with
  | nil => simp [adminLoop]
  | cons e rest ih =>
    simp only [adminLoop, List.mem_cons, exists_eq_or_imp]
    by_cases h : includes fromNumber (stripNonDigits e) = true
    · simp [h, (includes_iff _ _).1 h]
    · have h2 : ¬ stripNonDigits e <:+: fromNumber := fun hh => h ((includes_iff _ _).2 hh)
      simp [h, h2, ih]

/-- One unfolding of `shouldHandleMessage`, at any depth. -/
theorem shouldHandleMessage_unfold (toLowerCase : Str → Str) (fuel : Nat) (env : Env)
    (message : Message) :
    shouldHandleMessage toLowerCase fuel env message =
      if message.fromMe then some false
      else if endsWith message.from_ "@g.us".toList then some false
      else if responseMode env = "admin_only".toList then
        some (adminOnly env message)
      else if responseMode env = "command_only".toList then
        some (botCommands.any fun cmd => startsWith (toLowerCase message.body) cmd)
      else if responseMode env = "direct_messages_only".toList then
        some (endsWith message.from_ "@c.us".toList)
      else if responseMode env = "all".toList then some true
      else
        match fuel with
        | 0 => none
        | n + 1 => shouldHandleMessage toLowerCase n env message := by
  cases fuel <;> rfl

/-- Past the two filters, `shouldHandleMessage` is the `switch` alone. -/
theorem shouldHandleMessage_switch (toLowerCase : Str → Str) (fuel : Nat) (env : Env)
    (message : Message) (hself : message.fromMe = false)
    (hgroup : ¬ "@g.us".toList <:+ message.from_) :
    shouldHandleMessage toLowerCase fuel env message =
      if responseMode env = "admin_only".toList then
        some (adminOnly env message)
      else if responseMode env = "command_only".toList then
        some (botCommands.any fun cmd => startsWith (toLowerCase message.body) cmd)
      else if responseMode env = "direct_messages_only".toList then
        some (endsWith message.from_ "@c.us".toList)
      else if responseMode env = "all".toList then some true
      else
        match fuel with
        | 0 => none
        | n + 1 => shouldHandleMessage toLowerCase n env message := by
  have hg : endsWith message.from_ "@g.us".toList = false := by
    rw [← Bool.not_eq_true, endsWith_iff]; exact hgroup
  rw [shouldHandleMessage_unfold, hself, hg]
  simp

/-- The two filters in front of the `switch`. -/
theorem shouldHandleMessage_rejects_self_and_group_aux (toLowerCase : Str → Str)
    (fuel : Nat) (env : Env) (message : Message)
    (h : message.fromMe = true ∨ "@g.us".toList <:+ message.from_) :
    shouldHandleMessage toLowerCase fuel env message = some false := by
  rw [shouldHandleMessage_unfold]
  rcases h with h | h
  · simp [h]
  · have hg : endsWith message.from_ "@g.us".toList = true := (endsWith_iff _ _).2 h
    rw [hg]
    cases message.fromMe <;> simp

/-! ## Admission policy: theorems -/

/-- C4. Whatever the response mode, the allow-list, the text and the recursion
depth, `shouldHandleMessage` returns `false` for a self-originated message and
for a sender identity that ends with `@g.us`. -/
theorem shouldHandleMessage_rejects_self_and_group (toLowerCase : Str → Str)
    (fuel : Nat) (env : Env) (message : Message)
    (h : message.fromMe = true ∨ "@g.us".toList <:+ message.from_) :
    shouldHandleMessage toLowerCase fuel env message = some false :=
  shouldHandleMessage_rejects_self_and_group_aux toLowerCase fuel env message h

theorem shouldHandleMessage_rejects_self_and_group_witness :
    shouldHandleMessage asciiLower 0 ⟨some "all".toList, some "15550100".toList⟩
        ⟨"15550100@c.us".toList, "/help".toList, true⟩ = some false ∧
      shouldHandleMessage asciiLower 0 ⟨some "bogus".toList, none⟩
        ⟨"120363001234@g.us".toList, "/help".toList, false⟩ = some false :=
  ⟨shouldHandleMessage_rejects_self_and_group asciiLower 0 _ _ (Or.inl rfl),
   shouldHandleMessage_rejects_self_and_group asciiLower 0 _ _ (Or.inr (by decide))⟩

/-- C1 (the code departs from it). For a configured mode string that is neither
empty nor one of `admin_only`, `command_only`, `direct_messages_only`, `all`, and a
message that passes the self and group filters, `shouldHandleMessage` returns no
value at any recursion depth: the `default` case re-enters the function, which
reads the same mode again. -/
theorem shouldHandleMessage_unknown_mode_never_returns (toLowerCase : Str → Str)
    (env : Env) (message : Message) (mode : Str)
    (hmode : env.BOT_RESPONSE_MODE = some mode) (hne : mode ≠ [])
    (h1 : mode ≠ "admin_only".toList) (h2 : mode ≠ "command_only".toList)
    (h3 : mode ≠ "direct_messages_only".toList) (h4 : mode ≠ "all".toList)
    (hself : message.fromMe = false) (hgroup : ¬ "@g.us".toList <:+ message.from_)
    (fuel : Nat) :
    shouldHandleMessage toLowerCase fuel env message = none := by
  have hm : responseMode env = mode := by simp [responseMode, hmode, hne]
  induction fuel with
  | zero =>
    rw [shouldHandleMessage_switch _ _ _ _ hself hgroup, hm, if_neg h1, if_neg h2,
      if_neg h3, if_neg h4]
  | succ n ih =>
    rw [shouldHandleMessage_switch _ _ _ _ hself hgroup, hm, if_neg h1, if_neg h2,
      if_neg h3, if_neg h4]
    exact ih

theorem shouldHandleMessage_unknown_mode_never_returns_witness :
    adminOnly ⟨some "strict".toList, some "+1 555-0100".toList⟩
        ⟨"15550100@c.us".toList, "hi".toList, false⟩ = true ∧
      ∀ fuel, shouldHandleMessage asciiLower fuel
        ⟨some "strict".toList, some "+1 555-0100".toList⟩
        ⟨"15550100@c.us".toList, "hi".toList, false⟩ = none :=
  ⟨by decide, fun fuel =>
    shouldHandleMessage_unknown_mode_never_returns asciiLower _ _ "strict".toList rfl
      (by decide) (by decide) (by decide) (by decide) (by decide) rfl (by decide) fuel⟩

/-- C3 (the code departs from it). Under `admin_only` with `ADMIN_NUMBERS` set to
the empty string, `shouldHandleMessage` returns `true` for every message that
passes the self and group filters: `''.split(',')` is `['']`, and the empty
cleaned entry occurs in every sender number. -/
theorem shouldHandleMessage_empty_admin_numbers_accepts (toLowerCase : Str → Str)
    (fuel : Nat) (env : Env) (message : Message)
    (hmode : responseMode env = "admin_only".toList)
    (hadmin : env.ADMIN_NUMBERS = some [])
    (hself : message.fromMe = false) (hgroup : ¬ "@g.us".toList <:+ message.from_) :
    shouldHandleMessage toLowerCase fuel env message = some true := by
  rw [shouldHandleMessage_switch _ _ _ _ hself hgroup, if_pos hmode]
  have : adminOnly env message = true := by
    rw [adminOnly, adminLoop_iff]
    refine ⟨[], ?_, ?_⟩
    · simp [adminNumbers, hadmin, split, trim, trimEnd, trimStart]
    · simp [stripNonDigits]
  rw [this]

theorem shouldHandleMessage_empty_admin_numbers_accepts_witness :
    shouldHandleMessage asciiLower 0 ⟨some "admin_only".toList, some "".toList⟩
      ⟨"15550199@c.us".toList, "hi".toList, false⟩ = some true :=
  shouldHandleMessage_empty_admin_numbers_accepts asciiLower 0 _ _ rfl rfl rfl (by decide)

/-- No string ends with both `@g.us` and `@c.us`. -/
theorem not_direct_of_group (s : Str) (hg : "@g.us".toList <:+ s) :
    ¬ "@c.us".toList <:+ s := by
  intro hc
  have h := List.suffix_of_suffix_length_le hg hc (by decide)
  have := h.eq_of_length (by decide)
  exact absurd this (by decide)

/-- When `@` does not occur in `n`, removing the first `@c.us` from `n@c.us`
removes the suffix. -/
theorem removeFirst_suffix (n : Str) (h : '@' ∉ n) :
    removeFirst (n ++ "@c.us".toList) "@c.us".toList = n := by
  induction n with
  | nil => decide
  | cons c cs ih =>
    have hc : c ≠ '@' := fun e => h (by simp [e])
    have hcs : '@' ∉ cs := fun e => h (List.mem_cons_of_mem _ e)
    have hp : List.isPrefixOf "@c.us".toList (c :: (cs ++ "@c.us".toList)) = false := by
      rw [← Bool.not_eq_true, List.isPrefixOf_iff_prefix]
      intro hpre
      have : '@' = c := by
        obtain ⟨t, ht⟩ := hpre
        simpa using (List.cons.inj ht).1
      exact hc this.symm
    rw [List.cons_append, removeFirst, hp, if_neg Bool.false_ne_true, ih hcs]

/-- C2, counterexample. Sender `1@c.us2@c.us` under allow-list `12`: the code
removes the first `@c.us`, finds `12` in `12@c.us` and accepts, while no entry's
digits occur in the identity without its `@c.us` suffix, `1@c.us2`. -/
theorem admin_only_suffix_counterexample :
    shouldHandleMessage asciiLower 0 ⟨some "admin_only".toList, some "12".toList⟩
        ⟨"1@c.us2@c.us".toList, "hi".toList, false⟩ = some true ∧
      ¬ ∃ entry ∈ adminNumbers ⟨some "admin_only".toList, some "12".toList⟩,
          stripNonDigits entry <:+: specStripSuffix "1@c.us2@c.us".toList := by
  decide

/-- C2, amended. Under `admin_only`, for every message that passes the self and
group filters and every allow-list, `shouldHandleMessage` returns, and returns
`true` exactly when some allow-list entry's digits-only form occurs as a
substring of the sender identity with its first occurrence of `@c.us` removed. -/
theorem shouldHandleMessage_admin_only (toLowerCase : Str → Str) (fuel : Nat)
    (env : Env) (message : Message)
    (hmode : responseMode env = "admin_only".toList)
    (hself : message.fromMe = false) (hgroup : ¬ "@g.us".toList <:+ message.from_) :
    shouldHandleMessage toLowerCase fuel env message =
      some (decide (∃ entry ∈ adminNumbers env,
        entry.filter Char.isDigit <:+: removeFirst message.from_ "@c.us".toList)) := by
  rw [shouldHandleMessage_switch _ _ _ _ hself hgroup, if_pos hmode]
  congr 1
  rw [Bool.eq_iff_iff, decide_eq_true_iff, adminOnly, adminLoop_iff]
  rfl

theorem shouldHandleMessage_admin_only_witness :
    shouldHandleMessage asciiLower 0 ⟨some "admin_only".toList, some "+1 555-0100".toList⟩
        ⟨"15550100@c.us".toList, "hi".toList, false⟩ = some true ∧
      shouldHandleMessage asciiLower 0 ⟨none, some "+1 555-0100".toList⟩
        ⟨"15550199@c.us".toList, "hi".toList, false⟩ = some false :=
  ⟨(shouldHandleMessage_admin_only asciiLower 0
      ⟨some "admin_only".toList, some "+1 555-0100".toList⟩
      ⟨"15550100@c.us".toList, "hi".toList, false⟩ rfl rfl (by decide)).trans (by decide),
   (shouldHandleMessage_admin_only asciiLower 0 ⟨none, some "+1 555-0100".toList⟩
      ⟨"15550199@c.us".toList, "hi".toList, false⟩ rfl rfl (by decide)).trans (by decide)⟩

/-- C5, counterexample. Under `command_only` the text ` /help` (leading blank) is
rejected, although its lower-cased trimmed form starts with `/help`: the code
does not trim. -/
theorem command_only_trim_counterexample :
    shouldHandleMessage asciiLower 0 ⟨some "command_only".toList, none⟩
        ⟨"15550100@c.us".toList, " /help".toList, false⟩ = some false ∧
      ∃ cmd ∈ ["/weather".toList, "/translate".toList, "/search".toList, "/help".toList],
        cmd <+: trim (asciiLower " /help".toList) := by
  decide

/-- C5, amended. Under `command_only`, for every message that passes the self
and group filters, whatever the allow-list, `shouldHandleMessage` returns, and
returns `true` exactly when the lower-cased text, not trimmed, starts with one
of `/weather`, `/translate`, `/search`, `/help`. -/
theorem shouldHandleMessage_command_only (toLowerCase : Str → Str) (fuel : Nat)
    (env : Env) (message : Message)
    (hmode : responseMode env = "command_only".toList)
    (hself : message.fromMe = false) (hgroup : ¬ "@g.us".toList <:+ message.from_) :
    shouldHandleMessage toLowerCase fuel env message =
      some (decide (∃ cmd ∈
        ["/weather".toList, "/translate".toList, "/search".toList, "/help".toList],
        cmd <+: toLowerCase message.body)) := by
  have hne : responseMode env ≠ "admin_only".toList := by rw [hmode]; decide
  rw [shouldHandleMessage_switch _ _ _ _ hself hgroup, if_neg hne, if_pos hmode]
  congr 1
  rw [Bool.eq_iff_iff, decide_eq_true_iff, List.any_eq_true]
  constructor
  · rintro ⟨cmd, hmem, h⟩
    exact ⟨cmd, hmem, (startsWith_iff _ _).1 h⟩
  · rintro ⟨cmd, hmem, h⟩
    exact ⟨cmd, hmem, (startsWith_iff _ _).2 h⟩

theorem shouldHandleMessage_command_only_witness :
    shouldHandleMessage asciiLower 0 ⟨some "command_only".toList, none⟩
        ⟨"15550100@c.us".toList, "/help".toList, false⟩ = some true ∧
      shouldHandleMessage asciiLower 0 ⟨some "command_only".toList, some "15550100".toList⟩
        ⟨"15550100@c.us".toList, "hello".toList, false⟩ = some false :=
  ⟨(shouldHandleMessage_command_only asciiLower 0 ⟨some "command_only".toList, none⟩
      ⟨"15550100@c.us".toList, "/help".toList, false⟩ rfl rfl (by decide)).trans (by decide),
   (shouldHandleMessage_command_only asciiLower 0
      ⟨some "command_only".toList, some "15550100".toList⟩
      ⟨"15550100@c.us".toList, "hello".toList, false⟩ rfl rfl (by decide)).trans (by decide)⟩

/-- C6, counterexample. Under `direct_messages_only` the sender
`status@broadcast`, neither self-originated nor ending with `@g.us`, is
rejected. -/
theorem direct_messages_only_counterexample :
    shouldHandleMessage asciiLower 0 ⟨some "direct_messages_only".toList, none⟩
        ⟨"status@broadcast".toList, "hi".toList, false⟩ = some false ∧
      ¬ "@g.us".toList <:+ "status@broadcast".toList := by
  decide

/-- C6, amended. Under `direct_messages_only`, for every message,
`shouldHandleMessage` returns, and returns `true` exactly when the message is
not self-originated and the sender identity ends with `@c.us`. -/
theorem shouldHandleMessage_direct_messages_only (toLowerCase : Str → Str)
    (fuel : Nat) (env : Env) (message : Message)
    (hmode : responseMode env = "direct_messages_only".toList) :
    shouldHandleMessage toLowerCase fuel env message =
      some (decide (message.fromMe = false ∧ "@c.us".toList <:+ message.from_)) := by
  by_cases hself : message.fromMe = true
  · rw [shouldHandleMessage_rejects_self_and_group_aux toLowerCase fuel env message
      (Or.inl hself)]
    simp [hself]
  · have hself2 : message.fromMe = false := by simpa using hself
    by_cases hgroup : "@g.us".toList <:+ message.from_
    · rw [shouldHandleMessage_rejects_self_and_group_aux toLowerCase fuel env message
        (Or.inr hgroup)]
      have := not_direct_of_group _ hgroup
      simp only [this, and_false, decide_False]
    · have h1 : responseMode env ≠ "admin_only".toList := by rw [hmode]; decide
      have h2 : responseMode env ≠ "command_only".toList := by rw [hmode]; decide
      rw [shouldHandleMessage_switch _ _ _ _ hself2 hgroup, if_neg h1, if_neg h2,
        if_pos hmode]
      congr 1
      rw [Bool.eq_iff_iff, decide_eq_true_iff, endsWith_iff]
      simp only [hself2, true_and]

theorem shouldHandleMessage_direct_messages_only_witness :
    shouldHandleMessage asciiLower 0 ⟨some "direct_messages_only".toList, none⟩
        ⟨"15550100@c.us".toList, "hello".toList, false⟩ = some true ∧
      shouldHandleMessage asciiLower 0 ⟨some "direct_messages_only".toList, none⟩
        ⟨"15550100@lid".toList, "hello".toList, false⟩ = some false :=
  ⟨(shouldHandleMessage_direct_messages_only asciiLower 0
      ⟨some "direct_messages_only".toList, none⟩
      ⟨"15550100@c.us".toList, "hello".toList, false⟩ rfl).trans (by decide),
   (shouldHandleMessage_direct_messages_only asciiLower 0
      ⟨some "direct_messages_only".toList, none⟩
      ⟨"15550100@lid".toList, "hello".toList, false⟩ rfl).trans (by decide)⟩

/-! ## Command classifier: theorems -/

/-- The first branch condition of `parseCommand`. -/
theorem weather_condition (s : Str) :
    (startsWith s "/weather".toList || includes s "weather".toList) = true ↔
      "weather".toList <:+: s := by
  rw [Bool.or_eq_true, startsWith_iff, includes_iff]
  constructor
  · rintro (⟨t, rfl⟩ | h)
    · exact ⟨['/'], t, rfl⟩
    · exact h
  · exact Or.inr

/-- The fourth branch condition of `parseCommand`. -/
theorem help_condition (s : Str) :
    (includes s "help".toList || s == "/help".toList) = true ↔ "help".toList <:+: s := by
  rw [Bool.or_eq_true, includes_iff, beq_iff_eq]
  constructor
  · rintro (h | rfl)
    · exact h
    · decide
  · exact Or.inl

/-- C7. The `type` of `parseCommand(text)` is decided on the lower-cased trimmed
text `s` by first match in the order weather, translate, search, help, generic:
`weather` iff `s` contains `weather`; otherwise `translate` iff `s` starts with
`/translate`; otherwise `search` iff `s` starts with `/search`; otherwise `help`
iff `s` contains `help`; otherwise `generic`.  Hence a text with both `weather`
and `help` is a weather command. -/
theorem parseCommand_type (toLowerCase : Str → Str) (messageText : Str) :
    (parseCommand toLowerCase messageText).type =
        (if "weather".toList <:+: trim (toLowerCase messageText) then "weather".toList
         else if "/translate".toList <+: trim (toLowerCase messageText) then
           "translate".toList
         else if "/search".toList <+: trim (toLowerCase messageText) then "search".toList
         else if "help".toList <:+: trim (toLowerCase messageText) then "help".toList
         else "generic".toList) ∧
      ("weather".toList <:+: trim (toLowerCase messageText) →
        "help".toList <:+: trim (toLowerCase messageText) →
        (parseCommand toLowerCase messageText).type = "weather".toList) := by
  have key : (parseCommand toLowerCase messageText).type =
      (if "weather".toList <:+: trim (toLowerCase messageText) then "weather".toList
       else if "/translate".toList <+: trim (toLowerCase messageText) then
         "translate".toList
       else if "/search".toList <+: trim (toLowerCase messageText) then "search".toList
       else if "help".toList <:+: trim (toLowerCase messageText) then "help".toList
       else "generic".toList) := by
    unfold parseCommand
    simp only [weather_condition, help_condition, startsWith_iff]
    split_ifs <;> rfl
  refine ⟨key, fun hw _ => ?_⟩
  rw [key, if_pos hw]

theorem parseCommand_type_witness :
    (parseCommand asciiLower "Help, what is the WEATHER in Oslo?".toList).type
      = "weather".toList :=
  (parseCommand_type asciiLower "Help, what is the WEATHER in Oslo?".toList).2
    (by decide) (by decide)

theorem trimStart_eq_self (s : Str) (h : startsWithWhiteSpace s = false) :
    trimStart s = s := by
  cases s with
  | nil => rfl
  | cons c cs =>
    simp only [startsWithWhiteSpace] at h
    simp [trimStart, List.dropWhile, h]

theorem trimEnd_eq_self (s : Str) (h : endsWithWhiteSpace s = false) :
    trimEnd s = s := by
  have := trimStart_eq_self s.reverse h
  simp only [trimStart] at this
  simp [trimEnd, this]

theorem trimEnd_append (a b : Str) (hb : b ≠ []) (h : endsWithWhiteSpace b = false) :
    trimEnd (a ++ b) = a ++ b := by
  apply trimEnd_eq_self
  cases hr : b.reverse with
  | nil => exact absurd (List.reverse_eq_nil_iff.1 hr) hb
  | cons c cs =>
    simp only [endsWithWhiteSpace, hr, startsWithWhiteSpace] at h
    simp [endsWithWhiteSpace, hr, startsWithWhiteSpace, h]

theorem removeFirst_of_not_infix (s p : Str) (h : ¬ p <:+: s) : removeFirst s p = s := by
  induction s with
  | nil => rfl
  | cons c cs ih =>
    have h1 : ¬ p <+: c :: cs := fun hp => h hp.isInfix
    have h2 : ¬ p <:+: cs := fun hp => h (List.infix_cons hp)
    have h3 : List.isPrefixOf p (c :: cs) = false := by
      rw [← Bool.not_eq_true, List.isPrefixOf_iff_prefix]; exact h1
    rw [removeFirst, h3, if_neg Bool.false_ne_true, ih h2]

/-- C8, counterexample. `Tokyo` has no outer whitespace and no `weather` in any
letter case, yet the location of `parseCommand("/weather Tokyo")` is `tokyo`,
not `Tokyo`. -/
theorem parseCommand_weather_case_counterexample :
    startsWithWhiteSpace "Tokyo".toList = false ∧
      endsWithWhiteSpace "Tokyo".toList = false ∧
      ¬ "weather".toList <:+: asciiLower "Tokyo".toList ∧
      parseCommand asciiLower "/weather Tokyo".toList = .weather "tokyo".toList ∧
      parseCommand asciiLower "/weather Tokyo".toList ≠ .weather "Tokyo".toList := by
  decide

/-- C8, amended. When lower-casing `"/weather " + L` gives `"/weather "` followed
by the lower-cased `L`, and the lower-cased `L` has no leading or trailing
whitespace and does not contain `weather`, `parseCommand("/weather " + L)` is the
weather command whose location is the lower-cased `L`; and
`parseCommand("what's the weather")` has location `what's the`. -/
theorem parseCommand_weather_location (toLowerCase : Str → Str) (L : Str)
    (hpre : toLowerCase ("/weather ".toList ++ L) = "/weather ".toList ++ toLowerCase L)
    (hstart : startsWithWhiteSpace (toLowerCase L) = false)
    (hend : endsWithWhiteSpace (toLowerCase L) = false)
    (hno : ¬ "weather".toList <:+: toLowerCase L) :
    parseCommand toLowerCase ("/weather ".toList ++ L) = .weather (toLowerCase L) ∧
      parseCommand asciiLower "what's the weather".toList
        = .weather "what's the".toList := by
  refine ⟨?_, by decide⟩
  generalize hl : toLowerCase L = l at hpre hstart hend hno
  unfold parseCommand
  rw [hpre]
  cases l with
  | nil =>
    rw [if_pos (by decide)]
    decide
  | cons c cs =>
    have hcond : (startsWith ("/weather ".toList ++ c :: cs) "/weather".toList
        || includes ("/weather ".toList ++ c :: cs) "weather".toList) = true := by
      rw [weather_condition]
      exact ⟨['/'], ' ' :: c :: cs, rfl⟩
    have htext : trim ("/weather ".toList ++ c :: cs) = "/weather ".toList ++ c :: cs := by
      rw [trim, trimStart_eq_self _ (by rfl), trimEnd_append _ _ (by simp) hend]
    have hsp : ¬ "weather".toList <:+: ' ' :: c :: cs := by
      rw [List.infix_cons_iff]
      rintro (⟨t, ht⟩ | h)
      · exact absurd (List.cons.inj ht).1 (by decide)
      · exact hno h
    have hrm : removeFirst ("/weather ".toList ++ c :: cs) "/weather".toList
        = ' ' :: c :: cs := rfl
    have hfin : trim (' ' :: c :: cs) = c :: cs := by
      have h1 : trimStart (' ' :: c :: cs) = c :: cs := by
        have : trimStart (' ' :: c :: cs) = trimStart (c :: cs) := by
          simp [trimStart, List.dropWhile, isWhiteSpace]
        rw [this, trimStart_eq_self _ hstart]
      rw [trim, h1, trimEnd_eq_self _ hend]
    simp only [htext]
    rw [if_pos hcond, hrm, removeFirst_of_not_infix _ _ hsp, hfin]

theorem parseCommand_weather_location_witness :
    parseCommand asciiLower "/weather Tokyo".toList = .weather "tokyo".toList :=
  (parseCommand_weather_location asciiLower "Tokyo".toList rfl (by decide) (by decide)
    (by decide)).1

/-! ## Delivery: theorems -/

/-- C9, counterexample. A ready transport whose every send rejects with `null`:
`sendMessage` makes its three attempts and fails, but what it throws is the
`TypeError` of the outer `catch` reading `error.message`, not the value the
third attempt rejected with. -/
theorem sendMessage_null_rejection_counterexample :
    (fun _ => some Rejection.null : Nat → Option (Rejection Str)) 2 = some .null ∧
      (sendMessage true (fun _ => some (.null : Rejection Str))
          "15550100".toList "hello".toList).events =
        [.send "15550100@c.us".toList "hello".toList, .wait 2000,
         .send "15550100@c.us".toList "hello".toList, .wait 2000,
         .send "15550100@c.us".toList "hello".toList] ∧
      (sendMessage true (fun _ => some (.null : Rejection Str))
          "15550100".toList "hello".toList).result = .error .typeError ∧
      (SendError.typeError : SendError Str) ≠ .transport .null :=
  ⟨rfl, by decide, rfl, by decide⟩

/-- C9, amended. For a ready transport, let the first `min k 3` sends fail and,
when `k ≤ 2`, the send after them succeed (`k` consecutive failures before the
first success; `k ≥ 3` covers a send that keeps failing).  Then `sendMessage`
makes exactly `min (k+1) 3` send attempts, with exactly one 2000 ms wait between
consecutive attempts and none after the last; it succeeds iff `k ≤ 2`, and
otherwise it fails, with the error of the third attempt whenever that error is
an error object (not `null` or `undefined`). -/
theorem sendMessage_retry {ε : Type} (outcome : Nat → Option (Rejection ε))
    (to_ message : Str) (k : Nat)
    (hfail : ∀ i, i < k → i < 3 → ∃ r, outcome i = some r)
    (hsucc : k < 3 → outcome k = none) :
    (sendMessage true outcome to_ message).events =
        List.intersperse (Event.wait 2000)
          (List.replicate (min (k + 1) 3) (Event.send (chatId to_) message)) ∧
      ((sendMessage true outcome to_ message).result = .ok () ↔ k ≤ 2) ∧
      (2 < k → (∃ error, (sendMessage true outcome to_ message).result = .error error) ∧
        ∀ e, outcome 2 = some (.error e) →
          (sendMessage true outcome to_ message).result
            = .error (.transport (.error e))) := by
  rcases k with _ | _ | _ | k
  · have h0 := hsucc (by omega)
    simp [sendMessage, sendMessageTry, sendLoop, h0]
  · obtain ⟨r0, h0⟩ := hfail 0 (by omega) (by omega)
    have h1 := hsucc (by omega)
    simp [sendMessage, sendMessageTry, sendLoop, h0, h1]
  · obtain ⟨r0, h0⟩ := hfail 0 (by omega) (by omega)
    obtain ⟨r1, h1⟩ := hfail 1 (by omega) (by omega)
    have h2 := hsucc (by omega)
    simp [sendMessage, sendMessageTry, sendLoop, h0, h1, h2]
  · obtain ⟨r0, h0⟩ := hfail 0 (by omega) (by omega)
    obtain ⟨r1, h1⟩ := hfail 1 (by omega) (by omega)
    obtain ⟨r2, h2⟩ := hfail 2 (by omega) (by omega)
    refine ⟨?_, ?_, fun _ => ⟨?_, ?_⟩⟩
    · simp [sendMessage, sendMessageTry, sendLoop, h0, h1, h2]
    · simp [sendMessage, sendMessageTry, sendLoop, h0, h1, h2]
    · simp [sendMessage, sendMessageTry, sendLoop, h0, h1, h2]
    · intro e he
      rw [h2] at he
      cases he
      simp [sendMessage, sendMessageTry, sendLoop, h0, h1, h2, outerCatch]

theorem sendMessage_retry_witness :
    ((sendMessage true (fun i => if i < 2 then some (.error "busy") else none)
          "15550100".toList "hello".toList).events =
        [.send "15550100@c.us".toList "hello".toList, .wait 2000,
         .send "15550100@c.us".toList "hello".toList, .wait 2000,
         .send "15550100@c.us".toList "hello".toList] ∧
      (sendMessage true (fun i => if i < 2 then some (.error "busy") else none)
          "15550100".toList "hello".toList).result = .ok ()) ∧
    ((sendMessage true (fun i => some (.error i)) "15550100".toList "hello".toList).events =
        [.send "15550100@c.us".toList "hello".toList, .wait 2000,
         .send "15550100@c.us".toList "hello".toList, .wait 2000,
         .send "15550100@c.us".toList "hello".toList] ∧
      (sendMessage true (fun i => some (.error i)) "15550100".toList "hello".toList).result
        = .error (.transport (.error 2))) :=
  ⟨⟨(sendMessage_retry (fun i => if i < 2 then some (.error "busy") else none)
        "15550100".toList "hello".toList 2
        (fun i hi _ => ⟨.error "busy", if_pos hi⟩) (fun _ => rfl)).1,
    (sendMessage_retry (fun i => if i < 2 then some (.error "busy") else none)
        "15550100".toList "hello".toList 2
        (fun i hi _ => ⟨.error "busy", if_pos hi⟩) (fun _ => rfl)).2.1.2 (le_refl 2)⟩,
   ⟨(sendMessage_retry (fun i => some (.error i)) "15550100".toList "hello".toList 7
        (fun i _ _ => ⟨.error i, rfl⟩) (fun h => absurd h (by decide))).1,
    ((sendMessage_retry (fun i => some (.error i)) "15550100".toList "hello".toList 7
        (fun i _ _ => ⟨.error i, rfl⟩) (fun h => absurd h (by decide))).2.2
        (by decide)).2 2 rfl⟩⟩

/-! ## Weather dispatch: theorems -/

/-- C10, counterexample. The request returns the body `{}`, which lacks the
`description` and `temperature` fields: `getWeather` for `Oslo` returns
`Weather in Oslo: undefined, undefined°C`, not the apology. -/
theorem getWeather_malformed_body_counterexample :
    getWeather (.returned (.obj [])) "Oslo".toList
        = .ok "Weather in Oslo: undefined, undefined°C".toList ∧
      "Weather in Oslo: undefined, undefined°C".toList ≠
        "Sorry, I couldn't get weather information for Oslo. Please try again.".toList :=
  ⟨rfl, by decide⟩

/-- C10, amended. For every location and every outcome of the weather request,
`getWeather` does not throw.  When the HTTP call throws (timeout, non-2xx
status) or the decoded body is `null`, it returns exactly
`Sorry, I couldn't get weather information for {location}. Please try again.`,
as for `Oslo` on a timeout.  A body without the `description` and `temperature`
fields, be it an object or plain text (the empty body is the empty text), is
not a failure: the reply is `Weather in {location}: undefined, undefined°C`. -/
theorem getWeather_apology (request : HttpOutcome) (location : Str) :
    (∃ reply, getWeather request location = .ok reply) ∧
      (∀ e, getWeather (.threw e) location =
        .ok ("Sorry, I couldn't get weather information for ".toList ++ location ++
          ". Please try again.".toList)) ∧
      getWeather (.returned .null) location =
        .ok ("Sorry, I couldn't get weather information for ".toList ++ location ++
          ". Please try again.".toList) ∧
      (∀ fields, lookupField "description".toList fields = none →
        lookupField "temperature".toList fields = none →
        getWeather (.returned (.obj fields)) location =
          .ok ("Weather in ".toList ++ location ++
            ": undefined, undefined°C".toList)) ∧
      (∀ text, getWeather (.returned (.str text)) location =
        .ok ("Weather in ".toList ++ location ++ ": undefined, undefined°C".toList)) ∧
      getWeather (.threw (.http "timeout of 10000ms exceeded".toList)) "Oslo".toList =
        .ok "Sorry, I couldn't get weather information for Oslo. Please try again.".toList := by
  refine ⟨?_, fun e => rfl, rfl, ?_, ?_, rfl⟩
  · unfold getWeather
    cases getWeatherTry request location with
    | ok reply => exact ⟨reply, rfl⟩
    | error e => exact ⟨_, rfl⟩
  · intro fields hd ht
    have h1 : getProp (.obj fields) "description".toList = .ok .undefined := by
      rw [getProp, hd]; rfl
    have h2 : getProp (.obj fields) "temperature".toList = .ok .undefined := by
      rw [getProp, ht]; rfl
    rw [getWeather, getWeatherTry, h1, h2]
    simp [toStr, bind, Except.bind, pure, Except.pure]
  · intro text
    simp [getWeather, getWeatherTry, getProp, toStr, bind, Except.bind, pure, Except.pure]

theorem getWeather_apology_witness :
    getWeather (.returned (.obj [("temp".toList, .num "4".toList)])) "Oslo".toList
        = .ok "Weather in Oslo: undefined, undefined°C".toList ∧
      getWeather (.returned (.str [])) "Oslo".toList
        = .ok "Weather in Oslo: undefined, undefined°C".toList :=
  ⟨(getWeather_apology (.returned .null) "Oslo".toList).2.2.2.1
      [("temp".toList, .num "4".toList)] rfl rfl,
   (getWeather_apology (.returned .null) "Oslo".toList).2.2.2.2.1 []⟩

end Celeste
